import Mathlib

/-!
Verification of the completion-event recorder core
(crates/language_model/src/message_handler): the message data model, the
request/event mappers, the task-path classifier, the stream tap and the
Postgres-backed checkpoint store, shallowly embedded in Lean.
-/

set_option maxHeartbeats 1000000

namespace MessageHandler

/-- Shallow model of serde_json::Value: JSON values.  Numbers are modelled
as integers (floating-point payloads such as temperature never influence
any verified property). -/
inductive Json where
  | null : Json
  | bool (b : Bool) : Json
  | num (n : Int) : Json
  | str (s : String) : Json
  | arr (elems : List Json) : Json
  | obj (fields : List (String × Json)) : Json

/-- serde_json Value::as_str: Some only for string values. -/
def Json.asStr : Json → Option String
  | .str s => some s
  | _ => none

/-- HashMap<String, Value> lookup, modelled over an association list:
first binding wins (keys produced by the code at hand are distinct). -/
def lookupJ (fields : List (String × Json)) (k : String) : Option Json :=
  (fields.find? (fun p => p.1 == k)).map (fun p => p.2)

/-- ContentValue (mod.rs): untagged union of a single string or an array
of strings. -/
inductive ContentValue where
  | Single (s : String) : ContentValue
  | Multiple (xs : List String) : ContentValue

/-- ContentValue::new. -/
def ContentValue.new (content : String) : ContentValue := ContentValue.Single content

/-- Message (mod.rs): internally tagged enum, tag field `type`, five
variants; HashMap fields are modelled as association lists.  The Rust
field `example` is rendered `exampleField` because `example` is a Lean
keyword. -/
inductive Message where
  | Human (content : ContentValue) (id : String) (name : Option String)
      (exampleField : Bool) (additional_kwargs : List (String × Json))
      (response_metadata : List (String × Json)) : Message
  | Ai (content : ContentValue) (id : String) (name : Option String)
      (exampleField : Bool) (invalid_tool_calls : Option (List (String × Json)))
      (tool_calls : Option (List (String × Json)))
      (additional_kwargs : List (String × Json))
      (response_metadata : List (String × Json)) : Message
  | System (content : ContentValue) (id : String) (name : Option String)
      (exampleField : Bool) (additional_kwargs : List (String × Json))
      (response_metadata : List (String × Json)) : Message
  | Tool (content : ContentValue) (id : String) (name : Option String)
      (exampleField : Bool) (tool_call_id : Option String)
      (tool_name : Option String) (additional_kwargs : List (String × Json))
      (response_metadata : List (String × Json)) : Message
  | Function (content : ContentValue) (id : String) (name : Option String)
      (exampleField : Bool) (function_call : Option (List (String × Json)))
      (additional_kwargs : List (String × Json))
      (response_metadata : List (String × Json)) : Message

/-- EnumFields accessor response_metadata(): every variant carries it. -/
def Message.response_metadata : Message → List (String × Json)
  | .Human _ _ _ _ _ rm => rm
  | .Ai _ _ _ _ _ _ _ rm => rm
  | .System _ _ _ _ _ rm => rm
  | .Tool _ _ _ _ _ _ _ rm => rm
  | .Function _ _ _ _ _ _ rm => rm

/-- EnumFields accessor id(). -/
def Message.id : Message → String
  | .Human _ i _ _ _ _ => i
  | .Ai _ i _ _ _ _ _ _ => i
  | .System _ i _ _ _ _ => i
  | .Tool _ i _ _ _ _ _ _ => i
  | .Function _ i _ _ _ _ _ => i

/-- EnumFields accessor content(). -/
def Message.content : Message → ContentValue
  | .Human c _ _ _ _ _ => c
  | .Ai c _ _ _ _ _ _ _ => c
  | .System c _ _ _ _ _ => c
  | .Tool c _ _ _ _ _ _ _ => c
  | .Function c _ _ _ _ _ _ => c

/-- The serde discriminator value (`type` field) of each variant. -/
def Message.typeTag : Message → String
  | .Human .. => "human"
  | .Ai .. => "ai"
  | .System .. => "system"
  | .Tool .. => "tool"
  | .Function .. => "function"

/-- RequestIds: the conversation identity carried with every write
(thread, prompt, session, checkpoint — opaque strings). -/
structure RequestIds where
  thread_id : String
  prompt_id : String
  session_id : String
  checkpoint_id : String

/-- The intent extraction inside PostgresDatabaseClient::_parse_task_path:
for each message, response_metadata.get("intent") and then Value::as_str;
messages without a string intent contribute nothing. -/
def extractedIntents (message : List Message) : List String :=
  message.flatMap (fun f =>
    ((lookupJ f.response_metadata "intent").toList).flatMap (fun j => j.asStr.toList))

/-- PostgresDatabaseClient::_parse_task_path: starts from "standard",
overwrites with "summarization" when all extracted intents equal
ThreadSummarization, then overwrites with "context_summarization" when
all extracted intents equal ThreadContextSummarization (two independent
ifs, in this order). -/
def _parse_task_path (message : List Message) : String :=
  let task_paths := extractedIntents message
  let task_path := "standard"
  let task_path :=
    if task_paths.all (fun t => t == "ThreadSummarization") then "summarization"
    else task_path
  let task_path :=
    if task_paths.all (fun t => t == "ThreadContextSummarization") then "context_summarization"
    else task_path
  task_path

/-- Role of a request message (crate root): User, Assistant or System. -/
inductive Role where
  | User : Role
  | System : Role
  | Assistant : Role

/-- LanguageModelRequestMessage, restricted to the fields the handler
reads: role and content.  The content type is kept abstract (the crate
type MessageContent is outside the supplied sources); its serde
serialization is passed in explicitly, see mapFromCompletionRequest. -/
structure LanguageModelRequestMessage (γ : Type) where
  role : Role
  content : γ

/-- LanguageModelRequest, restricted to the fields the handler reads.
temperature is f32 in the source; it is modelled as an integer since no
verified property depends on its value.  intent and mode are enums in
the source rendered with Debug formatting; they are modelled as the
rendered variant-name string (e.g. "ThreadSummarization"). -/
structure LanguageModelRequest (γ : Type) where
  messages : List (LanguageModelRequestMessage γ)
  temperature : Option Int
  intent : Option String
  mode : Option String
  prompt_id : Option String

/-- LanguageModelArgs(pub LanguageModelId): the model identifier string
(LanguageModelId to_string). -/
structure LanguageModelArgs where
  model_id : String

/-- Rust Debug formatting of a String value adds surrounding double
quotes (interior escape sequences are not modelled; no verified property
depends on the interior rendering). -/
def rustDebugQuote (s : String) : String := "\"" ++ s ++ "\""

/-- AiMessageHandler::build_response_metadata: always inserts model_id
(the Debug rendering of the model id string); when a request is supplied,
additionally inserts temperature, intent, mode and prompt_id, each only
when set on the request. -/
def build_response_metadata {γ : Type} (metadata : Option (LanguageModelRequest γ))
    (language_model_args : LanguageModelArgs) : List (String × Json) :=
  [("model_id", Json.str (rustDebugQuote language_model_args.model_id))] ++
    (match metadata with
     | none => []
     | some meta =>
       (match meta.temperature with
        | some temperature => [("temperature", Json.num temperature)]
        | none => []) ++
       (match meta.intent with
        | some intent => [("intent", Json.str intent)]
        | none => []) ++
       (match meta.mode with
        | some mode => [("mode", Json.str mode)]
        | none => []) ++
       (match meta.prompt_id with
        | some prompt_id => [("prompt_id", Json.str prompt_id)]
        | none => []))

/-- AiMessageHandler::map_from_completion_request.  The serde_json
serialization of the request content is passed as toJsonString (it may
fail, as serde_json::to_string may); on failure the code logs and
substitutes String::default(), i.e. the empty string. -/
def map_from_completion_request {γ : Type} (toJsonString : γ → Except String String)
    (request_message : LanguageModelRequestMessage γ) (id : RequestIds)
    (metadata : Option (LanguageModelRequest γ))
    (language_model_args : LanguageModelArgs) : Option Message :=
  let content := match toJsonString request_message.content with
    | .ok content => content
    | .error _ => ""
  let content_value := ContentValue.new content
  let id := id.thread_id
  let response_metadata := build_response_metadata metadata language_model_args
  match request_message.role with
  | .User => some (Message.Human content_value id (some "ZedIdeAgent") false []
      response_metadata)
  | .System => some (Message.System content_value id (some "ZedIdeAgent") false []
      response_metadata)
  | .Assistant => some (Message.Ai content_value id (some "ZedIdeAgent") false none none []
      response_metadata)

/-- LanguageModelToolUse, restricted to the fields the handler reads.
The input type ι is kept abstract with its serialization passed in. -/
structure LanguageModelToolUse (ι : Type) where
  id : String
  name : String
  input : ι
  raw_input : String
  is_input_complete : Bool

/-- LanguageModelCompletionEvent: the closed set of event kinds matched
exhaustively (no wildcard) by map_from_completion_event.  Payloads the
handler never inspects (status, start-message, stop reason, token usage)
are abstract type parameters. -/
inductive LanguageModelCompletionEvent (σ π ρ τ ι : Type) where
  | StatusUpdate (payload : σ) : LanguageModelCompletionEvent σ π ρ τ ι
  | StartMessage (payload : π) : LanguageModelCompletionEvent σ π ρ τ ι
  | Text (text : String) : LanguageModelCompletionEvent σ π ρ τ ι
  | Thinking (text : String) (signature : Option String) :
      LanguageModelCompletionEvent σ π ρ τ ι
  | Stop (reason : ρ) : LanguageModelCompletionEvent σ π ρ τ ι
  | ToolUse (tool_use : LanguageModelToolUse ι) : LanguageModelCompletionEvent σ π ρ τ ι
  | UsageUpdate (token_usage : τ) : LanguageModelCompletionEvent σ π ρ τ ι

/-- AiMessageHandler::map_from_completion_event.  toJsonStringInput is
the serde_json serialization of the tool-use input; on failure the code
logs and substitutes the empty string. -/
def map_from_completion_event {γ σ π ρ τ ι : Type}
    (toJsonStringInput : ι → Except String String)
    (request_message : LanguageModelCompletionEvent σ π ρ τ ι) (thread_id : String)
    (metadata : Option (LanguageModelRequest γ))
    (language_model_args : LanguageModelArgs) : Option Message :=
  let response_metadata := build_response_metadata metadata language_model_args
  match request_message with
  | .StatusUpdate _ => none
  | .StartMessage _ => none
  | .Text text =>
    let id := thread_id
    some (Message.Ai (ContentValue.new text) id (some "ZedIdeAgent") false none none []
      response_metadata)
  | .Thinking text signature =>
    let id := thread_id
    let additional_kwargs := [("thinking", Json.str text)] ++
      (match signature with
       | some sig => [("signature", Json.str sig)]
       | none => [])
    some (Message.Ai (ContentValue.new text) id (some "ZedIdeAgent") false none none
      additional_kwargs response_metadata)
  | .Stop _ =>
    let id := thread_id
    some (Message.Ai (ContentValue.new "STOP") id (some "ZedIdeAgent") false none none []
      response_metadata)
  | .ToolUse tool_use =>
    let content := match toJsonStringInput tool_use.input with
      | .ok content => content
      | .error _ => ""
    let additional_kwargs :=
      [("raw_input", Json.str tool_use.raw_input),
       ("is_input_complete", Json.bool tool_use.is_input_complete)]
    some (Message.Tool (ContentValue.new content) tool_use.id (some "ZedIdeAgent") false
      (some tool_use.id) (some tool_use.name) additional_kwargs response_metadata)
  | .UsageUpdate _ => none

/-- serde serialization of ContentValue: `#[serde(untagged)]`, so Single
serializes as a bare JSON string and Multiple as a bare JSON array of
strings, no wrapper object. -/
def ContentValue.toJson : ContentValue → Json
  | .Single s => Json.str s
  | .Multiple xs => Json.arr (xs.map Json.str)

/-- Parse a JSON array whose elements must all be strings. -/
def allStrings : List Json → Option (List String)
  | [] => some []
  | .str s :: rest => (allStrings rest).map (fun xs => s :: xs)
  | _ :: _ => none

/-- serde deserialization of ContentValue: untagged, variants tried in
declaration order (Single, then Multiple). -/
def ContentValue.fromJson : Json → Option ContentValue
  | .str s => some (ContentValue.Single s)
  | .arr elems => (allStrings elems).map ContentValue.Multiple
  | _ => none

/-- serde serialization of an Option String field: None becomes an
explicit null (serde never omits a field without skip_serializing_if). -/
def optStrJson : Option String → Json
  | none => Json.null
  | some s => Json.str s

/-- serde serialization of an Option HashMap field: None becomes null. -/
def optObjJson : Option (List (String × Json)) → Json
  | none => Json.null
  | some fields => Json.obj fields

/-- serde serialization of Message: internally tagged
(`#[serde(tag = "type")]`), the variant fields flattened alongside the
discriminator, fields in declaration order. -/
def Message.toJson : Message → Json
  | .Human c i n e ak rm => Json.obj
      [("type", Json.str "human"), ("content", c.toJson), ("id", Json.str i),
       ("name", optStrJson n), ("example", Json.bool e),
       ("additional_kwargs", Json.obj ak), ("response_metadata", Json.obj rm)]
  | .Ai c i n e itc tc ak rm => Json.obj
      [("type", Json.str "ai"), ("content", c.toJson), ("id", Json.str i),
       ("name", optStrJson n), ("example", Json.bool e),
       ("invalid_tool_calls", optObjJson itc), ("tool_calls", optObjJson tc),
       ("additional_kwargs", Json.obj ak), ("response_metadata", Json.obj rm)]
  | .System c i n e ak rm => Json.obj
      [("type", Json.str "system"), ("content", c.toJson), ("id", Json.str i),
       ("name", optStrJson n), ("example", Json.bool e),
       ("additional_kwargs", Json.obj ak), ("response_metadata", Json.obj rm)]
  | .Tool c i n e tci tn ak rm => Json.obj
      [("type", Json.str "tool"), ("content", c.toJson), ("id", Json.str i),
       ("name", optStrJson n), ("example", Json.bool e),
       ("tool_call_id", optStrJson tci), ("tool_name", optStrJson tn),
       ("additional_kwargs", Json.obj ak), ("response_metadata", Json.obj rm)]
  | .Function c i n e fc ak rm => Json.obj
      [("type", Json.str "function"), ("content", c.toJson), ("id", Json.str i),
       ("name", optStrJson n), ("example", Json.bool e),
       ("function_call", optObjJson fc),
       ("additional_kwargs", Json.obj ak), ("response_metadata", Json.obj rm)]

/-- Deserialize a required String field. -/
def parseStr : Option Json → Option String
  | some (.str s) => some s
  | _ => none

/-- Deserialize an Option String field: serde defaults a missing Option
field to None; null also reads as None. -/
def parseOptStr : Option Json → Option (Option String)
  | none => some none
  | some .null => some none
  | some (.str s) => some (some s)
  | _ => none

/-- Deserialize an Option HashMap field (missing or null reads None). -/
def parseOptObj : Option Json → Option (Option (List (String × Json)))
  | none => some none
  | some .null => some none
  | some (.obj fields) => some (some fields)
  | _ => none

/-- Deserialize a bool field carrying `#[serde(default)]`: missing reads
as false. -/
def parseBoolDefault : Option Json → Option Bool
  | none => some false
  | some (.bool b) => some b
  | _ => none

/-- Deserialize a HashMap field carrying `#[serde(default)]`: missing
reads as the empty mapping. -/
def parseObjDefault : Option Json → Option (List (String × Json))
  | none => some []
  | some (.obj fields) => some fields
  | _ => none

/-- serde deserialization of Message: reads the `type` discriminator from
the flat object and then each field by name, applying the defaults noted
above; any shape mismatch fails. -/
def Message.fromJson (j : Json) : Option Message :=
  match j with
  | .obj fs =>
    match lookupJ fs "type" with
    | some (.str "human") =>
      match (lookupJ fs "content").bind ContentValue.fromJson,
          parseStr (lookupJ fs "id"), parseOptStr (lookupJ fs "name"),
          parseBoolDefault (lookupJ fs "example"),
          parseObjDefault (lookupJ fs "additional_kwargs"),
          parseObjDefault (lookupJ fs "response_metadata") with
      | some c, some i, some n, some e, some ak, some rm =>
        some (Message.Human c i n e ak rm)
      | _, _, _, _, _, _ => none
    | some (.str "ai") =>
      match (lookupJ fs "content").bind ContentValue.fromJson,
          parseStr (lookupJ fs "id"), parseOptStr (lookupJ fs "name"),
          parseBoolDefault (lookupJ fs "example"),
          parseOptObj (lookupJ fs "invalid_tool_calls"),
          parseOptObj (lookupJ fs "tool_calls"),
          parseObjDefault (lookupJ fs "additional_kwargs"),
          parseObjDefault (lookupJ fs "response_metadata") with
      | some c, some i, some n, some e, some itc, some tc, some ak, some rm =>
        some (Message.Ai c i n e itc tc ak rm)
      | _, _, _, _, _, _, _, _ => none
    | some (.str "system") =>
      match (lookupJ fs "content").bind ContentValue.fromJson,
          parseStr (lookupJ fs "id"), parseOptStr (lookupJ fs "name"),
          parseBoolDefault (lookupJ fs "example"),
          parseObjDefault (lookupJ fs "additional_kwargs"),
          parseObjDefault (lookupJ fs "response_metadata") with
      | some c, some i, some n, some e, some ak, some rm =>
        some (Message.System c i n e ak rm)
      | _, _, _, _, _, _ => none
    | some (.str "tool") =>
      match (lookupJ fs "content").bind ContentValue.fromJson,
          parseStr (lookupJ fs "id"), parseOptStr (lookupJ fs "name"),
          parseBoolDefault (lookupJ fs "example"),
          parseOptStr (lookupJ fs "tool_call_id"),
          parseOptStr (lookupJ fs "tool_name"),
          parseObjDefault (lookupJ fs "additional_kwargs"),
          parseObjDefault (lookupJ fs "response_metadata") with
      | some c, some i, some n, some e, some tci, some tn, some ak, some rm =>
        some (Message.Tool c i n e tci tn ak rm)
      | _, _, _, _, _, _, _, _ => none
    | some (.str "function") =>
      match (lookupJ fs "content").bind ContentValue.fromJson,
          parseStr (lookupJ fs "id"), parseOptStr (lookupJ fs "name"),
          parseBoolDefault (lookupJ fs "example"),
          parseOptObj (lookupJ fs "function_call"),
          parseObjDefault (lookupJ fs "additional_kwargs"),
          parseObjDefault (lookupJ fs "response_metadata") with
      | some c, some i, some n, some e, some fc, some ak, some rm =>
        some (Message.Function c i n e fc ak rm)
      | _, _, _, _, _, _, _ => none
    | _ => none
  | _ => none

/-- The optional fields of a message (by serialized name) that are
currently unset (None). -/
def Message.unsetOptionalFields : Message → List String
  | .Human _ _ n _ _ _ => if n.isNone then ["name"] else []
  | .Ai _ _ n _ itc tc _ _ =>
    (if n.isNone then ["name"] else []) ++
    (if itc.isNone then ["invalid_tool_calls"] else []) ++
    (if tc.isNone then ["tool_calls"] else [])
  | .System _ _ n _ _ _ => if n.isNone then ["name"] else []
  | .Tool _ _ n _ tci tn _ _ =>
    (if n.isNone then ["name"] else []) ++
    (if tci.isNone then ["tool_call_id"] else []) ++
    (if tn.isNone then ["tool_name"] else [])
  | .Function _ _ n _ fc _ _ =>
    (if n.isNone then ["name"] else []) ++
    (if fc.isNone then ["function_call"] else [])

/-- The same message with both metadata mappings emptied (what a read of
a serialization lacking those fields must produce, per the serde
defaults). -/
def Message.withEmptyKwargs : Message → Message
  | .Human c i n e _ _ => Message.Human c i n e [] []
  | .Ai c i n e itc tc _ _ => Message.Ai c i n e itc tc [] []
  | .System c i n e _ _ => Message.System c i n e [] []
  | .Tool c i n e tci tn _ _ => Message.Tool c i n e tci tn [] []
  | .Function c i n e fc _ _ => Message.Function c i n e fc [] []

/-- Drop the named keys from a JSON object (identity elsewhere). -/
def removeKeys (ks : List String) : Json → Json
  | .obj fs => Json.obj (fs.filter (fun p => !(ks.contains p.1)))
  | j => j

/-- The single-quote character. -/
def squoteChar : Char := Char.ofNat 39

/-- The single-quote string used when assembling the SQL text. -/
def squote : String := String.singleton squoteChar

/-- The first line of PostgresDatabaseClient::_parse_sql_query:
`json.replace(squote, "")`, i.e. every single-quote character of the
serialized batch is removed (a one-character pattern replaced by the
empty string removes each occurrence). -/
def stripSingleQuotes (s : String) : String :=
  String.mk (s.data.filter (fun c => c != squoteChar))

/-- A value wrapped in SQL single quotes, as the format string does. -/
def sqlQuoted (s : String) : String := squote ++ s ++ squote

/-- PostgresDatabaseClient::_parse_sql_query: strips single quotes from
the serialized batch, then interpolates the identity values, the stripped
batch text (twice: the INSERT value and the ON CONFLICT concatenation
operand) and the task path directly into the query text.  Whitespace of
the Rust format template is normalized to single spaces. -/
def _parse_sql_query (ids : RequestIds) (json : String) (task_path : String) : String :=
  let json := stripSingleQuotes json
  "INSERT INTO ide_checkpoints (thread_id, prompt_id, session_id, checkpoint_ts, checkpoint_id, blob, task_path) VALUES (" ++
    sqlQuoted ids.thread_id ++ ", " ++ sqlQuoted ids.prompt_id ++ ", " ++
    sqlQuoted ids.session_id ++ ", now(), " ++ sqlQuoted ids.checkpoint_id ++
    ", convert_to(" ++ sqlQuoted json ++ ", " ++ sqlQuoted "UTF8" ++ "), " ++
    sqlQuoted task_path ++
    ") ON CONFLICT (thread_id, checkpoint_id) DO UPDATE SET blob = convert_to(((COALESCE(convert_from(ide_checkpoints.blob, " ++
    sqlQuoted "UTF8" ++ ")::jsonb, " ++ sqlQuoted "[]" ++ "::jsonb) || " ++
    sqlQuoted json ++ "::jsonb)::text), " ++ sqlQuoted "UTF8" ++ ")"

/-- One row of the ide_checkpoints table.  checkpoint_ts is the write
time (now() at insert), modelled as a natural number; blob is the stored
JSON array, modelled decoded. -/
structure CheckpointRow where
  prompt_id : String
  session_id : String
  checkpoint_ts : Nat
  blob : List Json
  task_path : String

/-- The table keyed by (thread_id, checkpoint_id). -/
abbrev StoreKey := String × String

abbrev CheckpointStore := List (StoreKey × CheckpointRow)

/-- Table lookup by primary key (first match). -/
def lookupStore (store : CheckpointStore) (k : StoreKey) : Option CheckpointRow :=
  (store.find? (fun e => e.1 == k)).map (fun e => e.2)

/-- The effect of executing the upsert of _parse_sql_query, stated over
the decoded table: on a new (thread_id, checkpoint_id) key the incoming
identity values, write time, batch array and task path are inserted; on
an existing key the ON CONFLICT DO UPDATE clause runs, and it sets only
blob — to the old array concatenated with the new array (COALESCE of the
decoded old blob with the empty array, jsonb concatenation) — leaving
prompt_id, session_id, checkpoint_ts and task_path untouched. -/
def upsertCheckpoint (store : CheckpointStore) (ids : RequestIds) (newArr : List Json)
    (task_path : String) (now : Nat) : CheckpointStore :=
  let key : StoreKey := (ids.thread_id, ids.checkpoint_id)
  match store.find? (fun e => e.1 == key) with
  | none =>
    (key, CheckpointRow.mk ids.prompt_id ids.session_id now newArr task_path) :: store
  | some _ =>
    store.map (fun e =>
      if e.1 == key then (e.1, { e.2 with blob := e.2.blob ++ newArr }) else e)

/-- A persistence write: the arguments of one save_append_messages call. -/
structure PersistWrite where
  messages : List Message
  ids : RequestIds

/-- AiMessageHandler::save_completion_event: maps the event (note: the
checkpoint_id of the identity is what the code passes for the thread_id
parameter of map_from_completion_event) and, when a message results,
performs exactly one save_append_messages call with the one-element
batch; otherwise none. -/
def save_completion_event_writes {γ σ π ρ τ ι : Type}
    (toJsonStringInput : ι → Except String String)
    (request_message : LanguageModelCompletionEvent σ π ρ τ ι) (ids : RequestIds)
    (language_model_request : LanguageModelRequest γ)
    (language_model_args : LanguageModelArgs) : List PersistWrite :=
  match map_from_completion_event toJsonStringInput request_message ids.checkpoint_id
      (some language_model_request) language_model_args with
  | some msg => [PersistWrite.mk [msg] ids]
  | none => []

/-- AiMessageHandler::save_completion_req: the batch collected from a
request, one mapped message per request message (flat_map over the
Option result). -/
def save_completion_req_batch {γ : Type} (toJsonString : γ → Except String String)
    (request_message : LanguageModelRequest γ) (ids : RequestIds)
    (language_model_args : LanguageModelArgs) : List Message :=
  request_message.messages.flatMap (fun r =>
    (map_from_completion_request toJsonString r ids (some request_message)
      language_model_args).toList)

/-- A finite stream of Result elements together with the per-element
side effects its combinators have attached (the effects run when the
consumer polls the element).  A pristine source stream carries no
effects. -/
structure TappedStream (ε α β : Type) where
  elems : List (Except ε α)
  effects : Except ε α → List β

/-- A source stream with no attached effects. -/
def pureStream {ε α β : Type} (elems : List (Except ε α)) : TappedStream ε α β :=
  TappedStream.mk elems (fun _ => [])

/-- The futures Inspect combinator: the underlying stream plus the
inspection closure (which runs per element when the Inspect adaptor
itself is polled). -/
structure InspectAdaptor (ε α β : Type) where
  base : TappedStream ε α β
  closure : Except ε α → List β

/-- StreamExt::inspect. -/
def TappedStream.inspect {ε α β : Type} (t : TappedStream ε α β)
    (f : Except ε α → List β) : InspectAdaptor ε α β :=
  InspectAdaptor.mk t f

/-- Inspect::into_inner: consumes the combinator and returns the
underlying stream — the closure is discarded with the adaptor. -/
def InspectAdaptor.into_inner {ε α β : Type} (i : InspectAdaptor ε α β) :
    TappedStream ε α β :=
  i.base

/-- Consuming a stream to the end: the elements the consumer observes,
in order, and the side effects performed along the way. -/
def TappedStream.drain {ε α β : Type} (t : TappedStream ε α β) :
    List (Except ε α) × List β :=
  (t.elems, t.elems.flatMap t.effects)

/-- Same for a stream still wrapped in the Inspect adaptor: both the
pre-existing effects and the inspection closure run per element. -/
def InspectAdaptor.drain {ε α β : Type} (i : InspectAdaptor ε α β) :
    List (Except ε α) × List β :=
  (i.base.elems, i.base.elems.flatMap (fun x => i.base.effects x ++ i.closure x))

/-- AiMessageHandler::inspect_stream: wraps the stream in an inspect
whose closure, on an Ok element, spawns save_completion_event for a
clone of the event (an Err element spawns nothing), and then calls
.into_inner() on the adaptor — returning the underlying stream, as the
T -> T signature requires. -/
def inspect_stream {γ σ π ρ τ ι ε : Type}
    (s : TappedStream ε (LanguageModelCompletionEvent σ π ρ τ ι) PersistWrite)
    (toJsonStringInput : ι → Except String String) (ids : RequestIds)
    (language_model_request : LanguageModelRequest γ)
    (language_id : LanguageModelArgs) :
    TappedStream ε (LanguageModelCompletionEvent σ π ρ τ ι) PersistWrite :=
  (s.inspect (fun result =>
    match result with
    | .ok res =>
      save_completion_event_writes toJsonStringInput res ids language_model_request
        language_id
    | .error _ => [])).into_inner

/-- The variant tag selected by each request role in
map_from_completion_request: User gives Human, System gives System,
Assistant gives Ai. -/
def roleTag : Role → String
  | .User => "human"
  | .System => "system"
  | .Assistant => "ai"

/-- The control-signal event kinds: status updates, start-message
markers and usage updates. -/
def isControlEvent {σ π ρ τ ι : Type} : LanguageModelCompletionEvent σ π ρ τ ι → Bool
  | .StatusUpdate _ => true
  | .StartMessage _ => true
  | .UsageUpdate _ => true
  | _ => false

/-- Round-trip of the untagged ContentValue serialization. -/
theorem allStrings_map (xs : List String) : allStrings (xs.map Json.str) = some xs := by
  induction xs with
  | nil => rfl
  | cons a t ih => simp [allStrings, ih]

theorem contentValue_fromJson_toJson (c : ContentValue) :
    ContentValue.fromJson c.toJson = some c := by
  cases c with
  | Single s => rfl
  | Multiple xs => simp [ContentValue.toJson, ContentValue.fromJson, allStrings_map]

/-- C1, counterexample: on a batch with no extracted intents both
universally quantified checks of _parse_task_path hold vacuously, and the
later assignment wins, so the classifier returns "context_summarization",
not "standard" as the claim states. -/
theorem C1_counterexample :
    _parse_task_path [] = "context_summarization" ∧ _parse_task_path [] ≠ "standard" := by
  constructor
  · rfl
  · decide

/-- C1 (amended): the classifier returns "summarization" when the batch
has at least one extracted intent and every extracted intent equals
ThreadSummarization; it returns "context_summarization" whenever every
extracted intent equals ThreadContextSummarization — vacuously including
the batch with no extracted intents; and it returns "standard" whenever
some extracted intent differs from ThreadSummarization and some extracted
intent differs from ThreadContextSummarization (in particular every mixed
batch). -/
theorem C1_parse_task_path (batch : List Message) :
    ((extractedIntents batch ≠ [] ∧
        ∀ t ∈ extractedIntents batch, t = "ThreadSummarization") →
      _parse_task_path batch = "summarization") ∧
    ((∀ t ∈ extractedIntents batch, t = "ThreadContextSummarization") →
      _parse_task_path batch = "context_summarization") ∧
    (((∃ t ∈ extractedIntents batch, t ≠ "ThreadSummarization") ∧
        (∃ t ∈ extractedIntents batch, t ≠ "ThreadContextSummarization")) →
      _parse_task_path batch = "standard") := by
  refine ⟨?_, ?_, ?_⟩
  · rintro ⟨hne, hall⟩
    have h1 : (extractedIntents batch).all (fun t => t == "ThreadSummarization") = true := by
      rw [List.all_eq_true]
      intro t ht
      simp [hall t ht]
    have h2 : (extractedIntents batch).all
        (fun t => t == "ThreadContextSummarization") = false := by
      obtain ⟨t0, ht0⟩ := List.exists_mem_of_ne_nil _ hne
      rw [List.all_eq_false]
      refine ⟨t0, ht0, ?_⟩
      simp [hall t0 ht0]
    simp [_parse_task_path, h1, h2]
  · intro hall
    have h2 : (extractedIntents batch).all
        (fun t => t == "ThreadContextSummarization") = true := by
      rw [List.all_eq_true]
      intro t ht
      simp [hall t ht]
    simp [_parse_task_path, h2]
  · rintro ⟨⟨t1, ht1, hne1⟩, ⟨t2, ht2, hne2⟩⟩
    have h1 : (extractedIntents batch).all (fun t => t == "ThreadSummarization") = false := by
      rw [List.all_eq_false]
      exact ⟨t1, ht1, by simp [hne1]⟩
    have h2 : (extractedIntents batch).all
        (fun t => t == "ThreadContextSummarization") = false := by
      rw [List.all_eq_false]
      exact ⟨t2, ht2, by simp [hne2]⟩
    simp [_parse_task_path, h1, h2]

/-- A message whose response_metadata carries the ThreadSummarization
intent tag. -/
def msgSummarizationIntent : Message :=
  Message.Ai (ContentValue.Single "hello") "id1" none false none none []
    [("intent", Json.str "ThreadSummarization")]

/-- C1 witness: a singleton all-summarization batch classifies as
"summarization". -/
theorem C1_witness : _parse_task_path [msgSummarizationIntent] = "summarization" :=
  (C1_parse_task_path [msgSummarizationIntent]).1 ⟨by decide, by decide⟩

/-- C4: event mapping is total over the closed set of event kinds —
for every valid payload it produces no message exactly on the three
control kinds (status update, start message, usage update) and exactly
one message on every other kind (text delta, thinking delta, stop, tool
invocation). -/
theorem C4_event_mapping_totality {γ σ π ρ τ ι : Type}
    (toJsonStringInput : ι → Except String String)
    (ev : LanguageModelCompletionEvent σ π ρ τ ι) (thread_id : String)
    (metadata : Option (LanguageModelRequest γ)) (args : LanguageModelArgs) :
    (map_from_completion_event toJsonStringInput ev thread_id metadata args).isSome
      = !(isControlEvent ev) := by
  cases ev <;> rfl

/-- C7: ContentValue single-text serializes as a bare JSON string,
multi-text as a bare JSON array of strings, and parsing a serialization
and reserializing yields the identical JSON value (round-trip without
shape change). -/
theorem C7_content_value_shape (cv : ContentValue) (s : String) (xs : List String) :
    ContentValue.toJson (ContentValue.Single s) = Json.str s ∧
    ContentValue.toJson (ContentValue.Multiple xs) = Json.arr (xs.map Json.str) ∧
    (ContentValue.fromJson cv.toJson).map ContentValue.toJson = some cv.toJson := by
  refine ⟨rfl, rfl, ?_⟩
  rw [contentValue_fromJson_toJson]
  rfl

/-- C9: map_from_completion_request returns Some for every input — the
role selects the human/system/ai variant respectively and the produced
message id is the thread id of the conversation identity. -/
theorem C9_request_mapping_total {γ : Type} (toJsonString : γ → Except String String)
    (request_message : LanguageModelRequestMessage γ) (ids : RequestIds)
    (metadata : Option (LanguageModelRequest γ)) (args : LanguageModelArgs) :
    ∃ m, map_from_completion_request toJsonString request_message ids metadata args = some m ∧
      m.typeTag = roleTag request_message.role ∧ m.id = ids.thread_id := by
  rcases request_message with ⟨role, c⟩
  cases role <;> exact ⟨_, rfl, rfl, rfl⟩

/-- Fixed conversation identity used in the stream-tap evaluation. -/
def idsTap : RequestIds := RequestIds.mk "t1" "p1" "s1" "c1"

/-- Empty request context used in the stream-tap evaluation. -/
def reqTap : LanguageModelRequest Unit := LanguageModelRequest.mk [] none none none none

/-- Model arguments used in the stream-tap evaluation. -/
def argsTap : LanguageModelArgs := LanguageModelArgs.mk "model-1"

/-- Event streams with all opaque payloads instantiated at Unit. -/
abbrev EventU := LanguageModelCompletionEvent Unit Unit Unit Unit Unit

/-- C2: evaluating the tap on the stream [Err, Ok(text)]: the stream
returned by inspect_stream forwards both elements in the original order,
but draining it performs zero persistence writes — the closure built for
save_completion_event is discarded by .into_inner(), even though that
closure would have produced exactly one write for the Ok element (third
conjunct).  The claim (exactly one persistence write for each Ok
element) therefore fails on the code. -/
theorem C2_inspect_stream_drops_persistence :
    (inspect_stream
        (pureStream [Except.error (), Except.ok ((LanguageModelCompletionEvent.Text "hi" : EventU))])
        (fun _ : Unit => Except.ok "null") idsTap reqTap argsTap).drain
      = ([Except.error (), Except.ok ((LanguageModelCompletionEvent.Text "hi" : EventU))], ([] : List PersistWrite)) ∧
    (save_completion_event_writes (fun _ : Unit => Except.ok "null")
        ((LanguageModelCompletionEvent.Text "hi" : EventU)) idsTap reqTap argsTap).length = 1 := by
  exact ⟨rfl, rfl⟩

/-- Auxiliary: a keyed in-place update of the table changes exactly the
row the lookup finds. -/
theorem lookupStore_map_update (l : CheckpointStore) (k : StoreKey)
    (g : CheckpointRow → CheckpointRow) (r : CheckpointRow)
    (h : lookupStore l k = some r) :
    lookupStore (l.map (fun e => if e.1 == k then (e.1, g e.2) else e)) k
      = some (g r) := by
  induction l with
  | nil => simp [lookupStore] at h
  | cons a t ih =>
    by_cases hk : (a.1 == k) = true
    · have ha2 : a.2 = r := by
        rw [lookupStore, List.find?_cons_of_pos (p := fun e => e.1 == k) t hk] at h
        simpa using h
      have hfa : (if a.1 == k then (a.1, g a.2) else a) = (a.1, g a.2) := by
        simp [hk]
      rw [lookupStore, List.map_cons, hfa,
        List.find?_cons_of_pos (p := fun e => e.1 == k) (a := (a.1, g a.2))
          (t.map (fun e => if e.1 == k then (e.1, g e.2) else e)) hk]
      simp [ha2]
    · rw [lookupStore,
        List.find?_cons_of_neg (p := fun e => e.1 == k) t (by simpa using hk)] at h
      have hfa : (if a.1 == k then (a.1, g a.2) else a) = a := by
        simp [hk]
      rw [lookupStore, List.map_cons, hfa,
        List.find?_cons_of_neg (p := fun e => e.1 == k) (a := a)
          (t.map (fun e => if e.1 == k then (e.1, g e.2) else e)) (by simpa using hk)]
      exact ih h

/-- C3, counterexample: after a first write at time 1 with identity
(prompt p1, session s1) and a second write to the same
(thread, checkpoint) key at time 2 with identity (prompt p2, session
s2), the stored row still carries prompt_id p1, session_id s1 and
checkpoint_ts 1 — the ON CONFLICT DO UPDATE clause sets only blob, so
checkpoint_ts is not refreshed and prompt_id/session_id do not take the
incoming values, contrary to the claim. -/
theorem C3_counterexample :
    ((lookupStore
        (upsertCheckpoint
          (upsertCheckpoint [] (RequestIds.mk "t1" "p1" "s1" "c1")
            [Json.str "a"] "standard" 1)
          (RequestIds.mk "t1" "p2" "s2" "c1") [Json.str "b"] "standard" 2)
        ("t1", "c1")).map
      (fun r => (r.prompt_id, r.session_id, r.checkpoint_ts)))
      = some ("p1", "s1", 1) ∧
    ("p1", "s1", (1 : Nat)) ≠ ("p2", "s2", (2 : Nat)) := by
  constructor
  · rfl
  · decide

/-- C3 (amended): on a write to an existing (thread_id, checkpoint_id)
key, the upsert replaces blob with the old JSON array concatenated with
the new array, and leaves checkpoint_ts, prompt_id and session_id (and
task_path) at their prior values — the conflict clause updates only
blob. -/
theorem C3_upsert_existing_key (store : CheckpointStore) (ids : RequestIds)
    (newArr : List Json) (task_path : String) (now : Nat) (r : CheckpointRow)
    (h : lookupStore store (ids.thread_id, ids.checkpoint_id) = some r) :
    lookupStore (upsertCheckpoint store ids newArr task_path now)
        (ids.thread_id, ids.checkpoint_id)
      = some (CheckpointRow.mk r.prompt_id r.session_id r.checkpoint_ts
          (r.blob ++ newArr) r.task_path) := by
  rw [upsertCheckpoint]
  cases hf : store.find? (fun e => e.1 == (ids.thread_id, ids.checkpoint_id)) with
  | none =>
    exfalso
    rw [lookupStore, hf] at h
    exact Option.noConfusion h
  | some e =>
    simpa using
      lookupStore_map_update store (ids.thread_id, ids.checkpoint_id)
        (fun row => { row with blob := row.blob ++ newArr }) r h

/-- C3 witness: the amended statement evaluated on a one-row store. -/
theorem C3_witness :
    lookupStore
        (upsertCheckpoint
          [(("t1", "c1"), CheckpointRow.mk "p1" "s1" 1 [Json.str "a"] "standard")]
          (RequestIds.mk "t1" "p2" "s2" "c1") [Json.str "b"] "other" 2)
        ("t1", "c1")
      = some (CheckpointRow.mk "p1" "s1" 1 ([Json.str "a"] ++ [Json.str "b"]) "standard") :=
  C3_upsert_existing_key
    [(("t1", "c1"), CheckpointRow.mk "p1" "s1" 1 [Json.str "a"] "standard")]
    (RequestIds.mk "t1" "p2" "s2" "c1") [Json.str "b"] "other" 2
    (CheckpointRow.mk "p1" "s1" 1 [Json.str "a"] "standard") rfl

/-- C5, counterexample: with an identity whose thread_id is the empty
string, the request mapper produces a message whose id is the empty
string — the mappers do not guarantee a non-empty id for every input. -/
theorem C5_counterexample :
    ∃ m, map_from_completion_request (fun _ : Unit => Except.ok "c")
        (LanguageModelRequestMessage.mk Role.User ()) (RequestIds.mk "" "p" "s" "c")
        none (LanguageModelArgs.mk "m1") = some m ∧ m.id = "" :=
  ⟨_, rfl, rfl⟩

/-- C5 (amended): every message produced by the mappers carries an id
equal to the identity thread_id (request mapping and text, thinking and
stop events) or to the tool-use id (tool events); the id is therefore
non-empty whenever those input identifiers are non-empty. -/
theorem C5_message_id_nonempty {γ σ π ρ τ ι : Type}
    (toJsonString : γ → Except String String)
    (toJsonStringInput : ι → Except String String)
    (request_message : LanguageModelRequestMessage γ) (ids : RequestIds)
    (metadata : Option (LanguageModelRequest γ)) (args : LanguageModelArgs)
    (ev : LanguageModelCompletionEvent σ π ρ τ ι) (thread_id : String)
    (hthread : ids.thread_id ≠ "") (hevthread : thread_id ≠ "")
    (htool : ∀ tu, ev = LanguageModelCompletionEvent.ToolUse tu → tu.id ≠ "") :
    (∀ m, map_from_completion_request toJsonString request_message ids metadata args
        = some m → m.id ≠ "") ∧
    (∀ m, map_from_completion_event toJsonStringInput ev thread_id metadata args
        = some m → m.id ≠ "") := by
  constructor
  · intro m hm
    rcases request_message with ⟨role, c⟩
    cases role <;>
      (simp only [map_from_completion_request, Option.some.injEq] at hm
       subst hm
       exact hthread)
  · intro m hm
    cases ev with
    | StatusUpdate p => exact absurd hm (by simp [map_from_completion_event])
    | StartMessage p => exact absurd hm (by simp [map_from_completion_event])
    | UsageUpdate p => exact absurd hm (by simp [map_from_completion_event])
    | Text t =>
      simp only [map_from_completion_event, Option.some.injEq] at hm
      subst hm
      exact hevthread
    | Thinking t sig =>
      simp only [map_from_completion_event, Option.some.injEq] at hm
      subst hm
      exact hevthread
    | Stop reason =>
      simp only [map_from_completion_event, Option.some.injEq] at hm
      subst hm
      exact hevthread
    | ToolUse tu =>
      simp only [map_from_completion_event, Option.some.injEq] at hm
      subst hm
      exact htool tu rfl

/-- C5 witness: the amended statement evaluated on a concrete request
message with non-empty thread id. -/
theorem C5_witness :
    (Message.Human (ContentValue.Single "x") "t" (some "ZedIdeAgent") false []
        (build_response_metadata (γ := Unit) none (LanguageModelArgs.mk "m1"))).id ≠ "" :=
  (C5_message_id_nonempty (fun _ : Unit => Except.ok "x") (fun _ : Unit => Except.ok "x")
      (LanguageModelRequestMessage.mk Role.User ()) (RequestIds.mk "t" "p" "s" "c") none
      (LanguageModelArgs.mk "m1") ((LanguageModelCompletionEvent.Text "y" : EventU)) "c"
      (by decide) (by decide) (fun _ h => nomatch h)).1 _ rfl

/-- The request mapper produces a message for every role. -/
theorem map_from_completion_request_isSome {γ : Type}
    (toJsonString : γ → Except String String)
    (request_message : LanguageModelRequestMessage γ) (ids : RequestIds)
    (metadata : Option (LanguageModelRequest γ)) (args : LanguageModelArgs) :
    (map_from_completion_request toJsonString request_message ids metadata args).isSome := by
  rcases request_message with ⟨role, c⟩
  cases role <;> rfl

/-- Flattening the optional results of a mapper that is total on its
inputs keeps one element per input. -/
theorem length_flatMap_toList {α β : Type} (l : List α) (g : α → Option β)
    (h : ∀ r, (g r).isSome) :
    (l.flatMap (fun r => (g r).toList)).length = l.length := by
  induction l with
  | nil => rfl
  | cons a t ih =>
    cases hg : g a with
    | none =>
      exact absurd (h a) (by simp [hg])
    | some b =>
      simp [List.flatMap_cons, hg, ih]

/-- C8: a serialization failure of a request message content or of a
tool invocation input is recovered locally — the mapper still returns a
message, with the empty string substituted as its content, and the
enclosing batch operation still produces one message per request message
(it never aborts or returns an error). -/
theorem C8_serialization_failure_recovery {γ σ π ρ τ ι : Type}
    (toJsonString : γ → Except String String)
    (toJsonStringInput : ι → Except String String)
    (request_message : LanguageModelRequestMessage γ) (ids : RequestIds)
    (metadata : Option (LanguageModelRequest γ)) (args : LanguageModelArgs)
    (tool_use : LanguageModelToolUse ι) (thread_id : String)
    (request : LanguageModelRequest γ) (e1 e2 : String)
    (h1 : toJsonString request_message.content = Except.error e1)
    (h2 : toJsonStringInput tool_use.input = Except.error e2) :
    (∃ m, map_from_completion_request toJsonString request_message ids metadata args
        = some m ∧ m.content = ContentValue.Single "") ∧
    (∃ m, map_from_completion_event toJsonStringInput
        (LanguageModelCompletionEvent.ToolUse tool_use :
          LanguageModelCompletionEvent σ π ρ τ ι) thread_id metadata args
        = some m ∧ m.content = ContentValue.Single "") ∧
    (save_completion_req_batch toJsonString request ids args).length
      = request.messages.length := by
  refine ⟨?_, ?_, ?_⟩
  · rcases request_message with ⟨role, c⟩
    simp only at h1
    cases role <;>
      exact ⟨_, rfl, by simp [map_from_completion_request, h1, Message.content,
        ContentValue.new]⟩
  · exact ⟨_, rfl, by simp [map_from_completion_event, h2, Message.content,
      ContentValue.new]⟩
  · exact length_flatMap_toList request.messages _
      (fun r => map_from_completion_request_isSome toJsonString r ids (some request) args)

/-- C8 witness: evaluated with serializers that always fail. -/
theorem C8_witness :
    (∃ m, map_from_completion_request (fun _ : Unit => Except.error "boom")
        (LanguageModelRequestMessage.mk Role.Assistant ())
        (RequestIds.mk "t" "p" "s" "c") none (LanguageModelArgs.mk "m1")
        = some m ∧ m.content = ContentValue.Single "") ∧
    (∃ m, map_from_completion_event (fun _ : Unit => Except.error "boom2")
        (LanguageModelCompletionEvent.ToolUse
          (LanguageModelToolUse.mk "tool1" "search" () "raw" true) : EventU) "t"
        (none : Option (LanguageModelRequest Unit)) (LanguageModelArgs.mk "m1")
        = some m ∧ m.content = ContentValue.Single "") ∧
    (save_completion_req_batch (fun _ : Unit => Except.error "boom")
        (LanguageModelRequest.mk [LanguageModelRequestMessage.mk Role.User ()]
          none none none none)
        (RequestIds.mk "t" "p" "s" "c") (LanguageModelArgs.mk "m1")).length
      = (LanguageModelRequest.mk [LanguageModelRequestMessage.mk Role.User ()]
          none none none none :
          LanguageModelRequest Unit).messages.length :=
  C8_serialization_failure_recovery (fun _ : Unit => Except.error "boom")
    (fun _ : Unit => Except.error "boom2")
    (LanguageModelRequestMessage.mk Role.Assistant ())
    (RequestIds.mk "t" "p" "s" "c") none (LanguageModelArgs.mk "m1")
    (LanguageModelToolUse.mk "tool1" "search" () "raw" true) "t"
    (LanguageModelRequest.mk [LanguageModelRequestMessage.mk Role.User ()]
      none none none none)
    "boom" "boom2" rfl rfl

/-- Stripping the quote character is idempotent. -/
theorem stripSingleQuotes_idem (s : String) :
    stripSingleQuotes (stripSingleQuotes s) = stripSingleQuotes s := by
  simp [stripSingleQuotes, List.filter_filter]

/-- C10: the query text built by _parse_sql_query embeds the serialized
batch only after removing every single-quote character from it, so for
any serialization containing a single quote the embedded text (and hence
the stored blob) differs from the exact serialization: the query built
from the original text coincides with the query built from the stripped
text, and the stripped text is not the original. -/
theorem C10_sql_quote_stripping (ids : RequestIds) (json task_path : String)
    (h : squoteChar ∈ json.data) :
    _parse_sql_query ids json task_path
        = _parse_sql_query ids (stripSingleQuotes json) task_path ∧
    stripSingleQuotes json ≠ json := by
  constructor
  · simp [_parse_sql_query, stripSingleQuotes_idem]
  · intro heq
    have hdata : json.data.filter (fun c => c != squoteChar) = json.data :=
      congrArg String.data heq
    have hall := List.filter_eq_self.mp hdata squoteChar h
    simp at hall

/-- C10 witness: a serialization consisting of one single quote. -/
theorem C10_witness :
    _parse_sql_query (RequestIds.mk "t" "p" "s" "c") squote "standard"
        = _parse_sql_query (RequestIds.mk "t" "p" "s" "c") (stripSingleQuotes squote)
            "standard" ∧
    stripSingleQuotes squote ≠ squote :=
  C10_sql_quote_stripping (RequestIds.mk "t" "p" "s" "c") squote "standard" (by decide)

/-- Reading back a serialized Human message stripped of its two map
fields: the maps come back empty by the serde defaults. -/
theorem fromJson_human_stripped (c : ContentValue) (i : String) (n : Option String)
    (e : Bool) :
    Message.fromJson (Json.obj
        [("type", Json.str "human"), ("content", c.toJson), ("id", Json.str i),
         ("name", optStrJson n), ("example", Json.bool e)])
      = some (Message.Human c i n e [] []) := by
  cases c <;> cases n <;>
    simp [Message.fromJson, lookupJ, ContentValue.fromJson, ContentValue.toJson,
      allStrings_map, optStrJson, parseStr, parseOptStr, parseBoolDefault,
      parseObjDefault]

/-- Reading back a serialized Ai message stripped of its two map
fields. -/
theorem fromJson_ai_stripped (c : ContentValue) (i : String) (n : Option String)
    (e : Bool) (itc tc : Option (List (String × Json))) :
    Message.fromJson (Json.obj
        [("type", Json.str "ai"), ("content", c.toJson), ("id", Json.str i),
         ("name", optStrJson n), ("example", Json.bool e),
         ("invalid_tool_calls", optObjJson itc), ("tool_calls", optObjJson tc)])
      = some (Message.Ai c i n e itc tc [] []) := by
  cases c <;> cases n <;> cases itc <;> cases tc <;>
    simp [Message.fromJson, lookupJ, ContentValue.fromJson, ContentValue.toJson,
      allStrings_map, optStrJson, optObjJson, parseStr, parseOptStr, parseOptObj,
      parseBoolDefault, parseObjDefault]

/-- Reading back a serialized System message stripped of its two map
fields. -/
theorem fromJson_system_stripped (c : ContentValue) (i : String) (n : Option String)
    (e : Bool) :
    Message.fromJson (Json.obj
        [("type", Json.str "system"), ("content", c.toJson), ("id", Json.str i),
         ("name", optStrJson n), ("example", Json.bool e)])
      = some (Message.System c i n e [] []) := by
  cases c <;> cases n <;>
    simp [Message.fromJson, lookupJ, ContentValue.fromJson, ContentValue.toJson,
      allStrings_map, optStrJson, parseStr, parseOptStr, parseBoolDefault,
      parseObjDefault]

/-- Reading back a serialized Tool message stripped of its two map
fields. -/
theorem fromJson_tool_stripped (c : ContentValue) (i : String) (n : Option String)
    (e : Bool) (tci tn : Option String) :
    Message.fromJson (Json.obj
        [("type", Json.str "tool"), ("content", c.toJson), ("id", Json.str i),
         ("name", optStrJson n), ("example", Json.bool e),
         ("tool_call_id", optStrJson tci), ("tool_name", optStrJson tn)])
      = some (Message.Tool c i n e tci tn [] []) := by
  cases c <;> cases n <;> cases tci <;> cases tn <;>
    simp [Message.fromJson, lookupJ, ContentValue.fromJson, ContentValue.toJson,
      allStrings_map, optStrJson, parseStr, parseOptStr, parseBoolDefault,
      parseObjDefault]

/-- Reading back a serialized Function message stripped of its two map
fields. -/
theorem fromJson_function_stripped (c : ContentValue) (i : String) (n : Option String)
    (e : Bool) (fc : Option (List (String × Json))) :
    Message.fromJson (Json.obj
        [("type", Json.str "function"), ("content", c.toJson), ("id", Json.str i),
         ("name", optStrJson n), ("example", Json.bool e),
         ("function_call", optObjJson fc)])
      = some (Message.Function c i n e fc [] []) := by
  cases c <;> cases n <;> cases fc <;>
    simp [Message.fromJson, lookupJ, ContentValue.fromJson, ContentValue.toJson,
      allStrings_map, optStrJson, optObjJson, parseStr, parseOptStr, parseOptObj,
      parseBoolDefault, parseObjDefault]

/-- C6: for every message, serde serialization produces a flat object —
the variant discriminator sits in the `type` field alongside the data
fields, not under a payload key; every unset optional field is present
with an explicit null value (not omitted); and parsing a serialization
from which the additional_kwargs and response_metadata fields are absent
succeeds, with both mappings defaulting to empty. -/
theorem C6_message_serialization (m : Message) :
    ∃ fs, Message.toJson m = Json.obj fs ∧
      lookupJ fs "type" = some (Json.str m.typeTag) ∧
      (∀ f ∈ m.unsetOptionalFields, lookupJ fs f = some Json.null) ∧
      Message.fromJson
          (removeKeys ["additional_kwargs", "response_metadata"] (Json.obj fs))
        = some m.withEmptyKwargs := by
  cases m with
  | Human c i n e ak rm =>
    refine ⟨_, rfl, rfl, ?_, ?_⟩
    · intro f hf
      cases n <;> fin_cases hf <;> rfl
    · have hstrip : removeKeys ["additional_kwargs", "response_metadata"]
          (Json.obj
            [("type", Json.str "human"), ("content", c.toJson), ("id", Json.str i),
             ("name", optStrJson n), ("example", Json.bool e),
             ("additional_kwargs", Json.obj ak), ("response_metadata", Json.obj rm)])
          = Json.obj
            [("type", Json.str "human"), ("content", c.toJson), ("id", Json.str i),
             ("name", optStrJson n), ("example", Json.bool e)] := by
        simp [removeKeys]
      rw [hstrip, fromJson_human_stripped]
      rfl
  | Ai c i n e itc tc ak rm =>
    refine ⟨_, rfl, rfl, ?_, ?_⟩
    · intro f hf
      cases n <;> cases itc <;> cases tc <;> fin_cases hf <;> rfl
    · have hstrip : removeKeys ["additional_kwargs", "response_metadata"]
          (Json.obj
            [("type", Json.str "ai"), ("content", c.toJson), ("id", Json.str i),
             ("name", optStrJson n), ("example", Json.bool e),
             ("invalid_tool_calls", optObjJson itc), ("tool_calls", optObjJson tc),
             ("additional_kwargs", Json.obj ak), ("response_metadata", Json.obj rm)])
          = Json.obj
            [("type", Json.str "ai"), ("content", c.toJson), ("id", Json.str i),
             ("name", optStrJson n), ("example", Json.bool e),
             ("invalid_tool_calls", optObjJson itc), ("tool_calls", optObjJson tc)] := by
        simp [removeKeys]
      rw [hstrip, fromJson_ai_stripped]
      rfl
  | System c i n e ak rm =>
    refine ⟨_, rfl, rfl, ?_, ?_⟩
    · intro f hf
      cases n <;> fin_cases hf <;> rfl
    · have hstrip : removeKeys ["additional_kwargs", "response_metadata"]
          (Json.obj
            [("type", Json.str "system"), ("content", c.toJson), ("id", Json.str i),
             ("name", optStrJson n), ("example", Json.bool e),
             ("additional_kwargs", Json.obj ak), ("response_metadata", Json.obj rm)])
          = Json.obj
            [("type", Json.str "system"), ("content", c.toJson), ("id", Json.str i),
             ("name", optStrJson n), ("example", Json.bool e)] := by
        simp [removeKeys]
      rw [hstrip, fromJson_system_stripped]
      rfl
  | Tool c i n e tci tn ak rm =>
    refine ⟨_, rfl, rfl, ?_, ?_⟩
    · intro f hf
      cases n <;> cases tci <;> cases tn <;> fin_cases hf <;> rfl
    · have hstrip : removeKeys ["additional_kwargs", "response_metadata"]
          (Json.obj
            [("type", Json.str "tool"), ("content", c.toJson), ("id", Json.str i),
             ("name", optStrJson n), ("example", Json.bool e),
             ("tool_call_id", optStrJson tci), ("tool_name", optStrJson tn),
             ("additional_kwargs", Json.obj ak), ("response_metadata", Json.obj rm)])
          = Json.obj
            [("type", Json.str "tool"), ("content", c.toJson), ("id", Json.str i),
             ("name", optStrJson n), ("example", Json.bool e),
             ("tool_call_id", optStrJson tci), ("tool_name", optStrJson tn)] := by
        simp [removeKeys]
      rw [hstrip, fromJson_tool_stripped]
      rfl
  | Function c i n e fc ak rm =>
    refine ⟨_, rfl, rfl, ?_, ?_⟩
    · intro f hf
      cases n <;> cases fc <;> fin_cases hf <;> rfl
    · have hstrip : removeKeys ["additional_kwargs", "response_metadata"]
          (Json.obj
            [("type", Json.str "function"), ("content", c.toJson), ("id", Json.str i),
             ("name", optStrJson n), ("example", Json.bool e),
             ("function_call", optObjJson fc),
             ("additional_kwargs", Json.obj ak), ("response_metadata", Json.obj rm)])
          = Json.obj
            [("type", Json.str "function"), ("content", c.toJson), ("id", Json.str i),
             ("name", optStrJson n), ("example", Json.bool e),
             ("function_call", optObjJson fc)] := by
        simp [removeKeys]
      rw [hstrip, fromJson_function_stripped]
      rfl

/-- A concrete Ai message with every optional field unset. -/
def msgAiUnset : Message :=
  Message.Ai (ContentValue.Single "hello") "id1" none false none none [] []

/-- C6 witness: the defaulting-on-read clause evaluated on a concrete
message. -/
theorem C6_witness :
    Message.fromJson
        (removeKeys ["additional_kwargs", "response_metadata"]
          (Message.toJson msgAiUnset))
      = some msgAiUnset.withEmptyKwargs := by
  obtain ⟨fs, h1, _, _, h4⟩ := C6_message_serialization msgAiUnset
  rw [h1]
  exact h4

end MessageHandler
